import Mathlib

/-!
# SilentVoice_BD — feature-extraction and normalization pipeline, shallow embedding

This file embeds the landmark-to-feature pipeline of the SilentVoice_BD
repository (`python-ai/scripts/pose_extractor.py`,
`python-ai/scripts/pose_feature_extractor.py`,
`python-ai/scripts/sign_predictor.py`,
`python-ai/scripts/calculate_normalization.py`) into Lean and proves the
testable properties of its specification against the embedded code.

Numeric values are modelled as rationals (`ℚ`); the Python code uses IEEE
floats, whose non-finite values are modelled explicitly by the `FVal` type
where the code can receive them (the predictor boundary).
-/

namespace SilentVoice

/-- Clamp of `x` into `[lo, hi]` (for `lo ≤ hi`) — `np.clip(x, lo, hi)`. -/
def clip (lo hi x : ℚ) : ℚ := max lo (min hi x)

/-- Clamp into `[0, 1]` — `max(0.0, min(1.0, _))` in the source. -/
def clamp01 (x : ℚ) : ℚ := max 0 (min 1 x)

/-- Mean of a list, `np.mean` (the mean of the empty list is taken as `0`). -/
def meanQ (l : List ℚ) : ℚ := l.sum / l.length

/-- Variance of a list, `np.var`: mean squared deviation from the mean. -/
def varQ (l : List ℚ) : ℚ := meanQ (l.map (fun x => (x - meanQ l) ^ 2))

/-- One MediaPipe landmark: coordinates plus a visibility score
(`visibility` is only meaningful for body-pose landmarks). -/
structure Landmark where
  x : ℚ
  y : ℚ
  z : ℚ
  visibility : ℚ
deriving DecidableEq

/-- The detector's per-frame output: each group is either absent (`none`,
MediaPipe returns `None`) or a list of landmarks. -/
structure HolisticResults where
  left_hand_landmarks : Option (List Landmark)
  right_hand_landmarks : Option (List Landmark)
  pose_landmarks : Option (List Landmark)
  face_landmarks : Option (List Landmark)
deriving DecidableEq

/-- Flatten `[lm.x, lm.y, lm.z]` over a landmark list. -/
def flat3 (lms : List Landmark) : List ℚ :=
  lms.flatMap (fun l => [l.x, l.y, l.z])

/-- Flatten `[lm.x, lm.y, lm.z, lm.visibility]` over a landmark list. -/
def flat4 (lms : List Landmark) : List ℚ :=
  lms.flatMap (fun l => [l.x, l.y, l.z, l.visibility])

theorem flat3_length (lms : List Landmark) : (flat3 lms).length = 3 * lms.length := by
  induction lms with
  | nil => rfl
  | cons a t ih => simp [flat3, List.flatMap_cons] at ih ⊢; omega

theorem flat4_length (lms : List Landmark) : (flat4 lms).length = 4 * lms.length := by
  induction lms with
  | nil => rfl
  | cons a t ih => simp [flat4, List.flatMap_cons] at ih ⊢; omega

/-- Embeds `EnhancedPoseExtractor._calculate_quality_score` (pose_extractor.py,
lines 166–184): weighted component presence, non-zero-ratio, scaled
variance, combined and clamped to `[0, 1]`; a feature vector whose length
is not 288 scores `0.0`. -/
def calculate_quality_score (features : List ℚ) (lh_q rh_q pose_q face_q : ℚ) : ℚ :=
  if features.length ≠ 288 then 0
  else
    let component_score := pose_q * (4/10) + lh_q * (3/10) + rh_q * (3/10) + face_q * 0
    let zero_percentage : ℚ :=
      ((features.filter (fun v => |v| < 1/1000000)).length : ℚ) / (features.length : ℚ)
    let data_quality := max 0 (1 - zero_percentage)
    let motion_variance := min 1 (varQ features * 1000)
    clamp01 (component_score * (5/10) + data_quality * (3/10) + motion_variance * (2/10))

/-- A hand block of `extract_keypoints_enhanced`: flattened coordinates
when present (21 points × 3 = 63 in MediaPipe), a 63-zero block when
absent, paired with the component quality `1.0`/`0.0`. -/
def hand_block (o : Option (List Landmark)) : List ℚ × ℚ :=
  match o with
  | some lms => (flat3 lms, (1 : ℚ))
  | none => (List.replicate 63 (0 : ℚ), 0)

/-- The pose block of `extract_keypoints_enhanced`: coordinates plus
visibility when present (33 points × 4 = 132 in MediaPipe), a 132-zero
block when absent; the component quality is the mean visibility. -/
def pose_block (o : Option (List Landmark)) : List ℚ × ℚ :=
  match o with
  | some lms => (flat4 lms, meanQ (lms.map Landmark.visibility))
  | none => (List.replicate 132 (0 : ℚ), 0)

/-- The face block of `extract_keypoints_enhanced`: the first 10 face
points flattened (10 × 3 = 30) when the face group is present with at
least 10 points, a 30-zero block otherwise. -/
def face_block (o : Option (List Landmark)) : List ℚ × ℚ :=
  match o with
  | some lms =>
      if 10 ≤ lms.length then (flat3 (lms.take 10), (1 : ℚ))
      else (List.replicate 30 (0 : ℚ), 0)
  | none => (List.replicate 30 (0 : ℚ), 0)

/-- Embeds `EnhancedPoseExtractor.extract_keypoints_enhanced` (pose_extractor.py,
lines 119–164): concatenate left hand, right hand, pose-with-visibility and
first-10-face blocks (an absent group contributes a zero block), and pair
the vector with its quality score. -/
def extract_keypoints_enhanced (results : HolisticResults) : List ℚ × ℚ :=
  let lhp := hand_block results.left_hand_landmarks
  let rhp := hand_block results.right_hand_landmarks
  let posep := pose_block results.pose_landmarks
  let facep := face_block results.face_landmarks
  let features := lhp.1 ++ rhp.1 ++ posep.1 ++ facep.1
  (features, calculate_quality_score features lhp.2 rhp.2 posep.2 facep.2)

/-- A coordinates-only block of
`PoseFeatureExtractor.extract_features_from_landmarks`: flattened (x, y, z)
when present, `n` zeros when absent (`n` = 99 for pose, 63 for a hand). -/
def coords_block (n : Nat) (o : Option (List Landmark)) : List ℚ :=
  match o with
  | some lms => flat3 lms
  | none => List.replicate n (0 : ℚ)

/-- The face block of `extract_features_from_landmarks`: the first 21 face
points flattened (21 × 3 = 63) when the face group has strictly more than
21 points, a 63-zero block otherwise. -/
def face21_block (o : Option (List Landmark)) : List ℚ :=
  match o with
  | some lms =>
      if 21 < lms.length then flat3 (lms.take 21)
      else List.replicate 63 (0 : ℚ)
  | none => List.replicate 63 (0 : ℚ)

/-- Embeds `PoseFeatureExtractor.extract_features_from_landmarks`
(pose_feature_extractor.py, lines 30–76): pose (33×3, no visibility), left
hand, right hand, then the first 21 face points; finally a defensive pad
or truncate to exactly 288 entries. -/
def extract_features_from_landmarks (results : HolisticResults) : List ℚ :=
  let features := coords_block 99 results.pose_landmarks
    ++ coords_block 63 results.left_hand_landmarks
    ++ coords_block 63 results.right_hand_landmarks
    ++ face21_block results.face_landmarks
  if features.length = 288 then features
  else if features.length < 288 then features ++ List.replicate (288 - features.length) 0
  else features.take 288

/-- Modelled from the claim's words: the claimed face block is the first
10 face points flattened when the face group is present (10 × 3 = 30), a
30-zero block when absent. -/
def claimed_face_block (o : Option (List Landmark)) : List ℚ :=
  match o with
  | some lms => flat3 (lms.take 10)
  | none => List.replicate 30 (0 : ℚ)

/-- Modelled from the claim's words (for comparison against the source
encoders): a frame encoding is the concatenation of four fixed blocks in
the order left_hand (21×3 = 63), right_hand (21×3 = 63), pose with
visibility (33×4 = 132), first-10-face (10×3 = 30); an absent group
contributes a zero block of exactly that block's length. -/
def claimedEncodeFrame (results : HolisticResults) : List ℚ :=
  (hand_block results.left_hand_landmarks).1
  ++ (hand_block results.right_hand_landmarks).1
  ++ (pose_block results.pose_landmarks).1
  ++ claimed_face_block results.face_landmarks

/-! ## Normalization transform (shared by extractor and predictor) -/

/-- Z-score-normalize one frame against per-dimension means and stds and
clip every value to `[-5, 5]` (`(x - mean) / std` then `np.clip(·, -5, 5)`;
pose_extractor.py lines 376–379, sign_predictor.py lines 248–251).
NumPy broadcasting requires the frame and the parameter vectors to have
equal length; callers establish that before taking this path. -/
def normalizeFrame (means stds f : List ℚ) : List ℚ :=
  (f.zip (means.zip stds)).map (fun p => clip (-5) 5 ((p.1 - p.2.1) / p.2.2))

theorem normalizeFrame_length (means stds f : List ℚ)
    (hm : means.length = f.length) (hs : stds.length = f.length) :
    (normalizeFrame means stds f).length = f.length := by
  simp [normalizeFrame, hm, hs]

/-- The "neutral" padding frame: the all-zero raw frame pushed through the
normalization transform, `clip(-mean/std, -5, 5)` per dimension
(pose_extractor.py lines 474–475, sign_predictor.py lines 275–276). -/
def neutralFrame (means stds : List ℚ) : List ℚ :=
  (means.zip stds).map (fun p => clip (-5) 5 (-p.1 / p.2))

theorem neutralFrame_length (means stds : List ℚ) (h : stds.length = means.length) :
    (neutralFrame means stds).length = means.length := by
  simp [neutralFrame, h]

/-! ## The pose extractor's sequence pipeline (`pose_extractor.py`) -/

/-- State of an `EnhancedPoseExtractor` after construction: normalization
parameters (or their absence) plus the configuration fields the sequence
pipeline reads (defaults from `_load_config`, lines 61–69). -/
structure ExtractorState where
  feature_means : List ℚ
  feature_stds : List ℚ
  normalization_loaded : Bool
  sequence_length : Nat := 30
  feature_dim : Nat := 288
  quality_threshold : ℚ := 2/5
  enable_quality_filtering : Bool := true

/-- Embeds `EnhancedPoseExtractor._apply_normalization` (lines 365–390): if the
parameters are loaded and broadcast-compatible with the data, normalize
every frame and report `True`; otherwise (parameters not loaded, or the
NumPy broadcast raises and the exception handler fires) return the input
unchanged with `False`. -/
def apply_normalization (st : ExtractorState) (sequences : List (List ℚ)) :
    List (List ℚ) × Bool :=
  if st.normalization_loaded
      ∧ st.feature_stds.length = st.feature_means.length
      ∧ ∀ f ∈ sequences, f.length = st.feature_means.length then
    (sequences.map (normalizeFrame st.feature_means st.feature_stds), true)
  else
    (sequences, false)

/-- Embeds `EnhancedPoseExtractor._apply_quality_filtering` (lines 442–457): keep
the frames whose score meets the threshold; if none do, keep the best
half (at least one frame), sorted by score descending. -/
def apply_quality_filtering (st : ExtractorState)
    (sequences : List (List ℚ)) (scores : List ℚ) :
    List (List ℚ) × List ℚ :=
  if scores.isEmpty then (sequences, scores)
  else
    let pairs := sequences.zip scores
    let filtered_pairs := pairs.filter (fun p => st.quality_threshold ≤ p.2)
    let kept :=
      if filtered_pairs.isEmpty then
        (pairs.insertionSort (fun a b => b.2 ≤ a.2)).take (max 1 (pairs.length / 2))
      else filtered_pairs
    (kept.map Prod.fst, kept.map Prod.snd)

/-- Embeds `EnhancedPoseExtractor._adjust_sequence_length` (lines 459–485): pass
through at the target length; truncate to the most recent `target` frames
when longer; when shorter and non-empty, append copies of the neutral
frame (`clip(-mean/std, -5, 5)` when parameters are loaded, literal zeros
otherwise); an empty input falls back to an all-zero sequence. -/
def adjust_sequence_length (st : ExtractorState) (sequences : List (List ℚ))
    (target : Nat) : List (List ℚ) :=
  if sequences.length = target then sequences
  else if target < sequences.length then sequences.drop (sequences.length - target)
  else if sequences.isEmpty then
    List.replicate target (List.replicate st.feature_dim 0)
  else
    let zero_normalized :=
      if st.normalization_loaded then neutralFrame st.feature_means st.feature_stds
      else List.replicate st.feature_dim (0 : ℚ)
    sequences ++ List.replicate (target - sequences.length) zero_normalized

/-- Embeds `EnhancedPoseExtractor._finalize_processing` (lines 392–440), reduced
to the data it computes: quality filtering (skipped when disabled), the
fewer-than-5-frames fallback to the raw frames, normalization, and the
pad/truncate to the configured sequence length.  Returns the final
sequence and the `normalized` flag of the result dictionary. -/
def finalize_processing (st : ExtractorState) (raw_sequences : List (List ℚ))
    (quality_scores : List ℚ) : List (List ℚ) × Bool :=
  let filtered :=
    if st.enable_quality_filtering then
      (apply_quality_filtering st raw_sequences quality_scores).1
    else raw_sequences
  let filtered2 := if filtered.length < 5 then raw_sequences else filtered
  let normp := apply_normalization st filtered2
  (adjust_sequence_length st normp.1 st.sequence_length, normp.2)

/-! ## The predictor's preprocessing (`sign_predictor.py`) -/

/-- An IEEE float as the predictor can receive it: NaN, an infinity, or a
finite value (modelled as a rational). -/
inductive FVal where
  | nan : FVal
  | pinf : FVal
  | ninf : FVal
  | fin : ℚ → FVal
deriving DecidableEq

/-- Replacement `np.nan_to_num(·, nan=0.0, posinf=1.0, neginf=-1.0)` on one value
(sign_predictor.py line 234). -/
def sanitizeVal : FVal → ℚ
  | .nan => 0
  | .pinf => 1
  | .ninf => -1
  | .fin q => q

/-- Sanitize a whole sequence.  (The source applies `nan_to_num` only when
a NaN or infinity was counted, but on all-finite data the substitution is
the identity, so unconditional application is equivalent.) -/
def sanitizeSeq (sequence : List (List FVal)) : List (List ℚ) :=
  sequence.map (List.map sanitizeVal)

/-- State of an `EnhancedSignLanguagePredictor` relevant to preprocessing:
normalization parameters and the configuration defaults
(`_load_config`, lines 54–63). -/
structure PredictorState where
  feature_means : List ℚ
  feature_stds : List ℚ
  normalization_loaded : Bool
  enable_normalization : Bool := true
  sequence_length : Nat := 30
  feature_dim : Nat := 288

/-- Embeds `EnhancedSignLanguagePredictor._load_normalization_params` together
with `_generate_default_normalization` (sign_predictor.py lines 76–111):
when both parameter files exist their contents are loaded and any zero std
is replaced by `1e-8`; when they are missing (or loading raises) the
fallback installs all-zero means, all-one stds and — crucially — still
sets `normalization_loaded = True`. -/
def load_normalization_params (files : Option (List ℚ × List ℚ))
    (feature_dim : Nat) : PredictorState :=
  match files with
  | some ms =>
      { feature_means := ms.1
        feature_stds := ms.2.map (fun s => if s = 0 then 1/100000000 else s)
        normalization_loaded := true
        feature_dim := feature_dim }
  | none =>
      { feature_means := List.replicate feature_dim 0
        feature_stds := List.replicate feature_dim 1
        normalization_loaded := true
        feature_dim := feature_dim }

/-- The sequence-length adjustment inside
`EnhancedSignLanguagePredictor.preprocess_sequence` (lines 265–282): keep
the last `sequence_length` frames when longer; when shorter, PREPEND
(`np.vstack([padding, data])`) copies of the neutral frame
(`clip(-mean/std, -5, 5)` when parameters are loaded, zeros otherwise). -/
def predictorAdjust (st : PredictorState) (data : List (List ℚ)) : List (List ℚ) :=
  if st.sequence_length < data.length then
    data.drop (data.length - st.sequence_length)
  else if data.length < st.sequence_length then
    let zero_frame :=
      if st.normalization_loaded then neutralFrame st.feature_means st.feature_stds
      else List.replicate st.feature_dim (0 : ℚ)
    List.replicate (st.sequence_length - data.length) zero_frame ++ data
  else data

/-- Embeds `EnhancedSignLanguagePredictor.preprocess_sequence` (lines 208–299):
validate the input shape (non-empty, rectangular — a ragged list does not
form a 2-D array — and the configured feature width), sanitize non-finite
values, apply normalization when loaded and enabled (a broadcast failure
raises and is reported as a preprocessing error), adjust the frame count,
and finally re-check the `(sequence_length, feature_dim)` shape.  Returns
the preprocessed data together with the `normalization_applied` flag that
`predict` copies into the result's `normalized` field. -/
def preprocess_sequence (st : PredictorState) (sequence : List (List FVal)) :
    Except String (List (List ℚ) × Bool) :=
  if sequence.isEmpty then .error "Empty sequence provided"
  else if ¬ ∀ r ∈ sequence, r.length = (sequence.headI).length then
    .error "Invalid data shape: expected 2D"
  else if (sequence.headI).length ≠ st.feature_dim then
    .error "Feature dimension mismatch"
  else
    let data := sanitizeSeq sequence
    let doNorm := st.normalization_loaded && st.enable_normalization
    if doNorm = true
        ∧ ¬ (st.feature_means.length = st.feature_dim
              ∧ st.feature_stds.length = st.feature_dim) then
      .error "Preprocessing failed: operands could not be broadcast"
    else
      let data2 :=
        if doNorm then data.map (normalizeFrame st.feature_means st.feature_stds)
        else data
      let data3 := predictorAdjust st data2
      if data3.length = st.sequence_length
          ∧ ∀ f ∈ data3, f.length = st.feature_dim then
        .ok (data3, doNorm)
      else .error "Final shape mismatch"

/-! ## The offline statistics pass (`calculate_normalization.py`) -/

/-- Column `j` of a rectangular corpus of frames. -/
def column (corpus : List (List ℚ)) (j : Nat) : List ℚ :=
  corpus.map (fun row => row.getD j 0)

/-- Embeds `NormalizationCalculator.calculate_normalization_parameters`
(calculate_normalization.py, lines 155–205): per-dimension mean and
standard deviation over all frames, with every zero std replaced by
`1e-8` before the parameters are returned.  `np.std` takes a real square
root, which ℚ does not have; the statistics pass is therefore
parameterized by the square-root function used on each column's
variance. -/
def calculate_normalization_parameters (sqrtQ : ℚ → ℚ)
    (corpus : List (List ℚ)) : List ℚ × List ℚ :=
  let dim := (corpus.headI).length
  let feature_means := (List.range dim).map (fun j => meanQ (column corpus j))
  let raw_stds := (List.range dim).map (fun j => sqrtQ (varQ (column corpus j)))
  (feature_means, raw_stds.map (fun s => if s = 0 then 1/100000000 else s))

/-! ## Definitions modelled from the spec's words, and concrete inputs -/

/-- Modelled from the spec's round-trip check: manual de-normalization
`raw = normalized*std + mean`, per dimension. -/
def denormFrame (means stds g : List ℚ) : List ℚ :=
  (g.zip (means.zip stds)).map (fun p => p.1 * p.2.2 + p.2.1)

/-- Modelled from the claim's words (C10): each NaN is replaced with
`0.0`, each `+Inf` with `1.0`, each `-Inf` with `-1.0`; finite values are
untouched. -/
def claimReplaceVal : FVal → ℚ
  | .nan => 0
  | .pinf => 1
  | .ninf => -1
  | .fin q => q

/-- Predictor state after construction with the parameter files missing. -/
def missingParamsState : PredictorState := load_normalization_params none 288

/-- Predictor state after construction with loaded parameters: every mean
`1`, every std `1`. -/
def onesParamsState : PredictorState :=
  load_normalization_params (some (List.replicate 288 1, List.replicate 288 1)) 288

/-- Extractor state with loaded parameters: every mean `1`, every std
`1`. -/
def onesExtractorState : ExtractorState :=
  { feature_means := List.replicate 288 1
    feature_stds := List.replicate 288 1
    normalization_loaded := true }

/-- A 30-frame sequence whose every value is the finite float `10`. -/
def tensInput : List (List FVal) :=
  List.replicate 30 (List.replicate 288 (FVal.fin 10))

/-- A 10-frame sequence whose every value is the finite float `2`. -/
def twosInput10 : List (List FVal) :=
  List.replicate 10 (List.replicate 288 (FVal.fin 2))

/-- A single 288-wide all-zero frame. -/
def oneFrameInput : List (List FVal) := [List.replicate 288 (FVal.fin 0)]

/-- A frame of 33 pose landmarks at `(2, 2, 2)` with visibility `1`, all
other groups absent. -/
def poseOnlyInput : HolisticResults :=
  { left_hand_landmarks := none
    right_hand_landmarks := none
    pose_landmarks := some (List.replicate 33 ⟨2, 2, 2, 1⟩)
    face_landmarks := none }

/-! ## Shared helper lemmas -/

theorem zip_replicate_same {α β : Type} (n : Nat) (a : α) (b : β) :
    (List.replicate n a).zip (List.replicate n b) = List.replicate n (a, b) := by
  induction n with
  | zero => rfl
  | succ k ih => simp [List.replicate_succ, ih]

theorem normalizeFrame_replicate (n : Nat) (m s x : ℚ) :
    normalizeFrame (List.replicate n m) (List.replicate n s) (List.replicate n x)
      = List.replicate n (clip (-5) 5 ((x - m) / s)) := by
  simp [normalizeFrame, zip_replicate_same]

theorem denormFrame_replicate (n : Nat) (m s g : ℚ) :
    denormFrame (List.replicate n m) (List.replicate n s) (List.replicate n g)
      = List.replicate n (g * s + m) := by
  simp [denormFrame, zip_replicate_same]

theorem neutralFrame_replicate (n : Nat) (m s : ℚ) :
    neutralFrame (List.replicate n m) (List.replicate n s)
      = List.replicate n (clip (-5) 5 (-m / s)) := by
  simp [neutralFrame, zip_replicate_same]

theorem clamp01_nonneg (x : ℚ) : 0 ≤ clamp01 x := le_max_left 0 _

theorem clamp01_le_one (x : ℚ) : clamp01 x ≤ 1 := by
  simp only [clamp01]
  rcases le_total 1 x with h | h
  · simp [min_eq_left, le_max_iff, min_le_left]
  · exact max_le (by norm_num) (min_le_left _ _)

theorem clip_eq_of_mem (lo hi x : ℚ) (h1 : lo ≤ x) (h2 : x ≤ hi) :
    clip lo hi x = x := by
  simp [clip, min_eq_right h2, max_eq_right, h1]

/-! ## Predictor pipeline helper lemmas -/

theorem sanitizeSeq_width (seq : List (List FVal)) (w : Nat)
    (h : ∀ r ∈ seq, r.length = w) :
    ∀ f ∈ sanitizeSeq seq, f.length = w := by
  intro f hf
  simp only [sanitizeSeq, List.mem_map] at hf
  obtain ⟨r, hr, rfl⟩ := hf
  simp [h r hr]

theorem neutral_width (st : PredictorState)
    (hm : st.feature_means.length = st.feature_dim)
    (hs : st.feature_stds.length = st.feature_dim) :
    (if st.normalization_loaded then neutralFrame st.feature_means st.feature_stds
     else List.replicate st.feature_dim (0 : ℚ)).length = st.feature_dim := by
  split
  · rw [neutralFrame_length _ _ (hs.trans hm.symm)]; exact hm
  · simp

theorem predictorAdjust_shape (st : PredictorState) (data : List (List ℚ))
    (hw : ∀ f ∈ data, f.length = st.feature_dim)
    (hm : st.feature_means.length = st.feature_dim)
    (hs : st.feature_stds.length = st.feature_dim) :
    (predictorAdjust st data).length = st.sequence_length
    ∧ ∀ f ∈ predictorAdjust st data, f.length = st.feature_dim := by
  unfold predictorAdjust
  split
  · next h =>
    refine ⟨?_, ?_⟩
    · rw [List.length_drop]; omega
    · intro f hf; exact hw f (List.mem_of_mem_drop hf)
  · next h =>
    split
    · next h2 =>
      refine ⟨?_, ?_⟩
      · simp; omega
      · intro f hf
        rcases List.mem_append.1 hf with hf | hf
        · rw [List.eq_of_mem_replicate hf]
          exact neutral_width st hm hs
        · exact hw f hf
    · next h2 => exact ⟨by omega, hw⟩

/-- On a non-empty rectangular input of the configured width, with
parameter vectors of the configured width, `preprocess_sequence` succeeds
and returns the sanitized (optionally normalized) data adjusted to the
configured frame count, flagged with whether normalization ran. -/
theorem preprocess_eq_of_valid (st : PredictorState) (sequence : List (List FVal))
    (hne : sequence ≠ [])
    (hrect : ∀ r ∈ sequence, r.length = sequence.headI.length)
    (hw : (sequence.headI).length = st.feature_dim)
    (hm : st.feature_means.length = st.feature_dim)
    (hs : st.feature_stds.length = st.feature_dim) :
    preprocess_sequence st sequence =
      .ok (predictorAdjust st
            (if st.normalization_loaded && st.enable_normalization then
              (sanitizeSeq sequence).map
                (normalizeFrame st.feature_means st.feature_stds)
             else sanitizeSeq sequence),
           st.normalization_loaded && st.enable_normalization) := by
  have h1 : sequence.isEmpty = false := by
    cases sequence with
    | nil => exact absurd rfl hne
    | cons a t => rfl
  have hdataw : ∀ f ∈ sanitizeSeq sequence, f.length = st.feature_dim :=
    sanitizeSeq_width sequence _ (fun r hr => (hrect r hr).trans hw)
  have hdata2w : ∀ f ∈ (if st.normalization_loaded && st.enable_normalization then
      (sanitizeSeq sequence).map (normalizeFrame st.feature_means st.feature_stds)
      else sanitizeSeq sequence), f.length = st.feature_dim := by
    split
    · intro f hf
      simp only [List.mem_map] at hf
      obtain ⟨g, hg, rfl⟩ := hf
      rw [normalizeFrame_length _ _ _ (hm.trans (hdataw g hg).symm)
        (hs.trans (hdataw g hg).symm)]
      exact hdataw g hg
    · exact hdataw
  have hshape := predictorAdjust_shape st _ hdata2w hm hs
  unfold preprocess_sequence
  rw [if_neg (by simp [h1]), if_neg (not_not_intro hrect), if_neg (by simp [hw]),
    if_neg (by simp [hm, hs]), if_pos ⟨hshape.1, hshape.2⟩]

/-! ## C2 — missing normalization parameters at inference -/

theorem normalizeFrame_zero_one (f : List ℚ) (n : Nat) (h : f.length = n) :
    normalizeFrame (List.replicate n 0) (List.replicate n 1) f
      = f.map (clip (-5) 5) := by
  induction f generalizing n with
  | nil => simp [normalizeFrame]
  | cons x t ih =>
    cases n with
    | zero => simp at h
    | succ k =>
      have ht := ih k (by simpa using h)
      simp only [List.replicate_succ, normalizeFrame, List.zip_cons_cons,
        List.map_cons] at ht ⊢
      rw [show ((x : ℚ) - 0) / 1 = x from by norm_num, ht]

theorem tensInput_ne_nil : tensInput ≠ [] :=
  List.ne_nil_of_length_pos (by rw [show tensInput.length = 30 from
    List.length_replicate 30 _]; norm_num)

theorem tensInput_rect : ∀ r ∈ tensInput, r.length = tensInput.headI.length := by
  intro r hr
  rw [List.eq_of_mem_replicate (show r ∈ List.replicate 30 _ from hr)]
  rfl

theorem missingParams_lengths :
    tensInput.headI.length = missingParamsState.feature_dim
    ∧ missingParamsState.feature_means.length = missingParamsState.feature_dim
    ∧ missingParamsState.feature_stds.length = missingParamsState.feature_dim := by
  refine ⟨?_, ?_, ?_⟩
  · rw [show tensInput.headI = List.replicate 288 (FVal.fin 10) from rfl,
      List.length_replicate]
    rfl
  · rw [show missingParamsState.feature_means = List.replicate 288 (0 : ℚ) from rfl,
      List.length_replicate]
    rfl
  · rw [show missingParamsState.feature_stds = List.replicate 288 (1 : ℚ) from rfl,
      List.length_replicate]
    rfl

/-- C2 counterexample: with the parameter files missing, the predictor
does NOT return its input unchanged with `applied = False`.  The fallback
marks the (default) parameters as loaded, preprocessing reports
`normalization_applied = True` (which `predict` copies into the result's
`normalized` field), and every input value `10` is changed to `5` by the
clipping inside the transform — falsifying the claim at this input. -/
theorem missing_params_cex :
    missingParamsState.normalization_loaded = true
    ∧ preprocess_sequence missingParamsState tensInput
        = .ok (List.replicate 30 (List.replicate 288 (5 : ℚ)), true) := by
  refine ⟨rfl, ?_⟩
  have h := preprocess_eq_of_valid missingParamsState tensInput tensInput_ne_nil
    tensInput_rect missingParams_lengths.1 missingParams_lengths.2.1
    missingParams_lengths.2.2
  rw [h]
  have hb : (missingParamsState.normalization_loaded
      && missingParamsState.enable_normalization) = true := rfl
  rw [hb, if_pos rfl]
  have hsan : sanitizeSeq tensInput
      = List.replicate 30 (List.replicate 288 (10 : ℚ)) := by
    show (List.replicate 30 (List.replicate 288 (FVal.fin 10))).map
        (List.map sanitizeVal) = _
    rw [List.map_replicate, List.map_replicate]
    rfl
  rw [hsan, List.map_replicate,
    show missingParamsState.feature_means = List.replicate 288 (0 : ℚ) from rfl,
    show missingParamsState.feature_stds = List.replicate 288 (1 : ℚ) from rfl,
    normalizeFrame_replicate,
    show clip (-5) 5 (((10 : ℚ) - 0) / 1) = 5 from by norm_num [clip, min_def, max_def]]
  unfold predictorAdjust
  rw [show missingParamsState.sequence_length = 30 from rfl, List.length_replicate,
    if_neg (lt_irrefl 30), if_neg (lt_irrefl 30)]

/-- C2 amended: when the persisted parameters are unavailable, the
predictor's fallback installs default parameters (all means `0`, all stds
`1`) and still sets `normalization_loaded = True`; preprocessing therefore
applies the default transform — which reduces to clipping every value to
`[-5, 5]` — and reports `normalization_applied = True`, so the final
prediction result carries `normalized == True`, not `False`; the input is
returned unchanged only insofar as its values already lie in `[-5, 5]`. -/
theorem missing_params_amended (sequence : List (List FVal))
    (hne : sequence ≠ [])
    (hrect : ∀ r ∈ sequence, r.length = sequence.headI.length)
    (hw : (sequence.headI).length = 288) :
    missingParamsState.normalization_loaded = true
    ∧ missingParamsState.feature_means = List.replicate 288 0
    ∧ missingParamsState.feature_stds = List.replicate 288 1
    ∧ preprocess_sequence missingParamsState sequence
        = .ok (predictorAdjust missingParamsState
            ((sanitizeSeq sequence).map (fun f => f.map (clip (-5) 5))), true) := by
  refine ⟨rfl, rfl, rfl, ?_⟩
  have h := preprocess_eq_of_valid missingParamsState sequence hne hrect
    (by rw [hw]; rfl) missingParams_lengths.2.1 missingParams_lengths.2.2
  rw [h]
  have hb : (missingParamsState.normalization_loaded
      && missingParamsState.enable_normalization) = true := rfl
  rw [hb, if_pos rfl]
  have hmapeq : (sanitizeSeq sequence).map
      (normalizeFrame missingParamsState.feature_means missingParamsState.feature_stds)
      = (sanitizeSeq sequence).map (fun f => f.map (clip (-5) 5)) := by
    apply List.map_congr_left
    intro f hf
    have hfw : f.length = 288 :=
      sanitizeSeq_width sequence 288 (fun r hr => (hrect r hr).trans hw) f hf
    show normalizeFrame (List.replicate 288 0) (List.replicate 288 1) f = _
    exact normalizeFrame_zero_one f 288 hfw
  rw [hmapeq]

/-- Witness for C2's amended theorem at the concrete 30×288 input of
tens. -/
theorem missing_params_amended_witness :
    preprocess_sequence missingParamsState tensInput
      = .ok (predictorAdjust missingParamsState
          ((sanitizeSeq tensInput).map (fun f => f.map (clip (-5) 5))), true) := by
  have h := missing_params_amended tensInput tensInput_ne_nil tensInput_rect
    (by rw [show tensInput.headI = List.replicate 288 (FVal.fin 10) from rfl,
      List.length_replicate])
  exact h.2.2.2

/-! ## C5 — the classifier boundary and the (30, 288) shape -/

theorem replicate_append_singleton {α : Type} (n : Nat) (a : α) :
    List.replicate n a ++ [a] = List.replicate (n + 1) a := by
  induction n with
  | zero => rfl
  | succ k ih => simp only [List.replicate_succ, List.cons_append, ih]

theorem oneFrameInput_rect :
    ∀ r ∈ oneFrameInput, r.length = oneFrameInput.headI.length := by
  intro r hr
  rw [List.mem_singleton.1 hr]
  rfl

/-- C5 counterexample: a sequence of a single 288-wide frame — whose shape
`(1, 288)` is not `(30, 288)` — is NOT rejected by the classifier
boundary: preprocessing succeeds and silently reshapes it to 30 frames by
padding, falsifying the claim that every non-`(30, 288)` input fails with
a ShapeMismatch condition. -/
theorem shape_reject_cex :
    oneFrameInput.length = 1
    ∧ preprocess_sequence missingParamsState oneFrameInput
        = .ok (List.replicate 30 (List.replicate 288 (0 : ℚ)), true) := by
  refine ⟨rfl, ?_⟩
  have h := preprocess_eq_of_valid missingParamsState oneFrameInput
    (List.cons_ne_nil _ _) oneFrameInput_rect
    (by rw [show oneFrameInput.headI = List.replicate 288 (FVal.fin 0) from rfl,
      List.length_replicate]; rfl)
    missingParams_lengths.2.1 missingParams_lengths.2.2
  rw [h]
  have hb : (missingParamsState.normalization_loaded
      && missingParamsState.enable_normalization) = true := rfl
  rw [hb, if_pos rfl]
  have hsan : sanitizeSeq oneFrameInput = [List.replicate 288 (0 : ℚ)] := by
    show [(List.replicate 288 (FVal.fin 0)).map sanitizeVal] = _
    rw [List.map_replicate]
    rfl
  rw [hsan,
    show ([List.replicate 288 (0 : ℚ)]).map
        (normalizeFrame missingParamsState.feature_means missingParamsState.feature_stds)
      = [normalizeFrame (List.replicate 288 0) (List.replicate 288 1)
          (List.replicate 288 0)] from rfl,
    normalizeFrame_replicate,
    show clip (-5) 5 (((0 : ℚ) - 0) / 1) = 0 from by norm_num [clip, min_def, max_def]]
  unfold predictorAdjust
  rw [if_neg (by rw [show missingParamsState.sequence_length = 30 from rfl]; norm_num),
    if_pos (by rw [show missingParamsState.sequence_length = 30 from rfl]; norm_num)]
  rw [show missingParamsState.normalization_loaded = true from rfl, if_pos rfl]
  rw [show neutralFrame missingParamsState.feature_means missingParamsState.feature_stds
      = List.replicate 288 (0 : ℚ) from by
    show neutralFrame (List.replicate 288 0) (List.replicate 288 1) = _
    rw [neutralFrame_replicate]
    norm_num [clip, min_def, max_def]]
  rw [show missingParamsState.sequence_length - ([List.replicate 288 (0:ℚ)]).length = 29
      from rfl]
  rw [replicate_append_singleton]

/-- C5 amended: the classifier boundary rejects a wrong per-frame feature
count (and empty or ragged input) with an error result, but a wrong FRAME
count is NOT rejected: preprocessing silently pads or truncates the frame
dimension to exactly the configured length, so the `(30, 288)` invariant
is enforced by reshaping, not by rejection, at this boundary. -/
theorem shape_reject_amended (st : PredictorState) (sequence : List (List FVal))
    (hne : sequence ≠ [])
    (hrect : ∀ r ∈ sequence, r.length = sequence.headI.length)
    (hm : st.feature_means.length = st.feature_dim)
    (hs : st.feature_stds.length = st.feature_dim) :
    ((sequence.headI).length ≠ st.feature_dim →
      preprocess_sequence st sequence = .error "Feature dimension mismatch")
    ∧ ((sequence.headI).length = st.feature_dim →
      ∃ out : List (List ℚ),
        preprocess_sequence st sequence
          = .ok (out, st.normalization_loaded && st.enable_normalization)
        ∧ out.length = st.sequence_length
        ∧ ∀ f ∈ out, f.length = st.feature_dim) := by
  constructor
  · intro hneq
    have h1 : sequence.isEmpty = false := by
      cases sequence with
      | nil => exact absurd rfl hne
      | cons a t => rfl
    unfold preprocess_sequence
    rw [if_neg (by simp [h1]), if_neg (not_not_intro hrect), if_pos hneq]
  · intro hw
    refine ⟨_, preprocess_eq_of_valid st sequence hne hrect hw hm hs, ?_, ?_⟩
    all_goals {
      have hdataw : ∀ f ∈ sanitizeSeq sequence, f.length = st.feature_dim :=
        sanitizeSeq_width sequence _ (fun r hr => (hrect r hr).trans hw)
      have hdata2w : ∀ f ∈ (if st.normalization_loaded && st.enable_normalization then
          (sanitizeSeq sequence).map (normalizeFrame st.feature_means st.feature_stds)
          else sanitizeSeq sequence), f.length = st.feature_dim := by
        split
        · intro f hf
          simp only [List.mem_map] at hf
          obtain ⟨g, hg, rfl⟩ := hf
          rw [normalizeFrame_length _ _ _ (hm.trans (hdataw g hg).symm)
            (hs.trans (hdataw g hg).symm)]
          exact hdataw g hg
        · exact hdataw
      first
      | exact (predictorAdjust_shape st _ hdata2w hm hs).1
      | exact (predictorAdjust_shape st _ hdata2w hm hs).2
    }

/-- Witness for C5's amended theorem: a 288-long single frame of width 1
is rejected with the feature-dimension error. -/
theorem shape_reject_amended_witness :
    preprocess_sequence missingParamsState [[FVal.fin 0]]
      = .error "Feature dimension mismatch" := by
  have h := shape_reject_amended missingParamsState [[FVal.fin 0]]
    (List.cons_ne_nil _ _)
    (by intro r hr; rw [List.mem_singleton.1 hr]; rfl)
    missingParams_lengths.2.1 missingParams_lengths.2.2
  exact h.1 (by decide)

/-! ## C10 — non-finite values are sanitized, prediction proceeds -/

theorem sanitizeVal_claim (v : FVal) :
    sanitizeVal (FVal.fin (claimReplaceVal v)) = sanitizeVal v := by
  cases v <;> rfl

theorem sanitizeSeq_claim (seq : List (List FVal)) :
    sanitizeSeq (seq.map (List.map (fun v => FVal.fin (claimReplaceVal v))))
      = sanitizeSeq seq := by
  simp only [sanitizeSeq, List.map_map]
  apply List.map_congr_left
  intro r _
  simp only [Function.comp_def, List.map_map]
  apply List.map_congr_left
  intro v _
  exact sanitizeVal_claim v

/-- C10: on any input of valid shape, preprocessing never fails because of
non-finite values: it succeeds, and its result coincides with
preprocessing the sequence in which — as the claim states — every NaN has
been replaced by `0.0`, every `+Inf` by `1.0` and every `-Inf` by `-1.0`
before normalization. -/
theorem nonfinite_values_sanitized (st : PredictorState) (sequence : List (List FVal))
    (hne : sequence ≠ [])
    (hrect : ∀ r ∈ sequence, r.length = sequence.headI.length)
    (hw : (sequence.headI).length = st.feature_dim)
    (hm : st.feature_means.length = st.feature_dim)
    (hs : st.feature_stds.length = st.feature_dim) :
    (preprocess_sequence st sequence).toOption ≠ none
    ∧ preprocess_sequence st sequence
        = preprocess_sequence st
            (sequence.map (List.map (fun v => FVal.fin (claimReplaceVal v)))) := by
  have h := preprocess_eq_of_valid st sequence hne hrect hw hm hs
  obtain ⟨a, t, rfl⟩ : ∃ a t, sequence = a :: t := by
    cases sequence with
    | nil => exact absurd rfl hne
    | cons a t => exact ⟨a, t, rfl⟩
  have hrect' : ∀ r ∈ (a :: t).map (List.map (fun v => FVal.fin (claimReplaceVal v))),
      r.length = (((a :: t).map (List.map (fun v => FVal.fin (claimReplaceVal v)))).headI).length := by
    intro r hr
    simp only [List.map_cons, List.headI_cons, List.length_map]
    simp only [List.map_cons, List.mem_cons, List.mem_map] at hr
    rcases hr with rfl | ⟨g, hg, rfl⟩
    · simp
    · simp only [List.length_map]
      exact (hrect g (List.mem_cons_of_mem a hg)).trans rfl
  have hw' : (((a :: t).map (List.map (fun v => FVal.fin (claimReplaceVal v)))).headI).length
      = st.feature_dim := by
    simp only [List.map_cons, List.headI_cons, List.length_map]
    exact hw
  have h2 := preprocess_eq_of_valid st
    ((a :: t).map (List.map (fun v => FVal.fin (claimReplaceVal v))))
    (by simp) hrect' hw' hm hs
  refine ⟨by rw [h]; intro hc; exact Option.noConfusion hc, ?_⟩
  rw [h, h2, sanitizeSeq_claim]

/-- Witness for C10 at a frame consisting entirely of NaNs. -/
theorem nonfinite_values_sanitized_witness :
    (preprocess_sequence missingParamsState [List.replicate 288 FVal.nan]).toOption ≠ none
    ∧ preprocess_sequence missingParamsState [List.replicate 288 FVal.nan]
        = preprocess_sequence missingParamsState
            ([List.replicate 288 FVal.nan].map
              (List.map (fun v => FVal.fin (claimReplaceVal v)))) := by
  exact nonfinite_values_sanitized missingParamsState [List.replicate 288 FVal.nan]
    (List.cons_ne_nil _ _)
    (by intro r hr; rw [List.mem_singleton.1 hr]; rfl)
    (by rw [show ([List.replicate 288 FVal.nan] : List (List FVal)).headI
        = List.replicate 288 FVal.nan from rfl, List.length_replicate]; rfl)
    missingParams_lengths.2.1 missingParams_lengths.2.2

/-! ## C3 — padding semantics -/

theorem onesParamsState_fields :
    onesParamsState.feature_means = List.replicate 288 1
    ∧ onesParamsState.feature_stds = List.replicate 288 1
    ∧ onesParamsState.normalization_loaded = true
    ∧ onesParamsState.feature_dim = 288
    ∧ onesParamsState.sequence_length = 30
    ∧ onesParamsState.enable_normalization = true := by
  refine ⟨rfl, ?_, rfl, rfl, rfl, rfl⟩
  show (List.replicate 288 (1 : ℚ)).map (fun s => if s = 0 then 1/100000000 else s) = _
  rw [List.map_replicate]
  norm_num

theorem twosInput10_rect :
    ∀ r ∈ twosInput10, r.length = twosInput10.headI.length := by
  intro r hr
  rw [List.eq_of_mem_replicate (show r ∈ List.replicate 10 _ from hr)]
  rfl

theorem neutralFrame_getElem (means stds : List ℚ) (i : Nat) (m s : ℚ)
    (hm : means[i]? = some m) (hs : stds[i]? = some s) :
    (neutralFrame means stds)[i]? = some (clip (-5) 5 (-m / s)) := by
  induction means generalizing stds i with
  | nil => simp at hm
  | cons a t ih =>
    cases stds with
    | nil => simp at hs
    | cons b u =>
      cases i with
      | zero =>
        simp only [List.getElem?_cons_zero, Option.some.injEq] at hm hs
        subst hm hs
        simp [neutralFrame]
      | succ k =>
        have hrec := ih u k (by simpa using hm) (by simpa using hs)
        simpa [neutralFrame] using hrec

/-- C3 counterexample: the predictor's preprocessing pads by PREPENDING,
not appending.  Assembling from 10 raw frames of twos (with means `1`,
stds `1` loaded) yields 30 frames whose FIRST 20 are the neutral frame
`clip(-1/1) = -1` and whose LAST 10 are the normalized real frames of
ones; in particular frame 29 is a real frame and not the neutral frame,
whereas the claim (padding appended) would require frames 10–29 all to
equal the neutral frame. -/
theorem padding_append_cex :
    preprocess_sequence onesParamsState twosInput10
      = .ok (List.replicate 20 (List.replicate 288 (-1 : ℚ))
             ++ List.replicate 10 (List.replicate 288 (1 : ℚ)), true)
    ∧ (List.replicate 20 (List.replicate 288 (-1 : ℚ))
         ++ List.replicate 10 (List.replicate 288 (1 : ℚ)))[29]?
        ≠ some (List.replicate 288 (-1 : ℚ))
    ∧ (List.replicate 20 (List.replicate 288 (-1 : ℚ))
         ++ List.replicate 10 (List.replicate 288 (1 : ℚ)))[0]?
        = some (List.replicate 288 (-1 : ℚ)) := by
  refine ⟨?_, ?_, ?_⟩
  · have h := preprocess_eq_of_valid onesParamsState twosInput10
      (List.ne_nil_of_length_pos (by rw [show twosInput10.length = 10 from
        List.length_replicate 10 _]; norm_num))
      twosInput10_rect
      (by rw [show twosInput10.headI = List.replicate 288 (FVal.fin 2) from rfl,
        List.length_replicate]; rfl)
      (by rw [onesParamsState_fields.1, List.length_replicate]; rfl)
      (by rw [onesParamsState_fields.2.1, List.length_replicate]; rfl)
    rw [h]
    have hb : (onesParamsState.normalization_loaded
        && onesParamsState.enable_normalization) = true := rfl
    rw [hb, if_pos rfl]
    have hsan : sanitizeSeq twosInput10
        = List.replicate 10 (List.replicate 288 (2 : ℚ)) := by
      show (List.replicate 10 (List.replicate 288 (FVal.fin 2))).map
          (List.map sanitizeVal) = _
      rw [List.map_replicate, List.map_replicate]
      rfl
    rw [hsan, List.map_replicate, onesParamsState_fields.1, onesParamsState_fields.2.1,
      normalizeFrame_replicate,
      show clip (-5) 5 (((2 : ℚ) - 1) / 1) = 1 from by norm_num [clip, min_def, max_def]]
    unfold predictorAdjust
    rw [show onesParamsState.sequence_length = 30 from rfl, List.length_replicate,
      if_neg (by norm_num), if_pos (by norm_num)]
    rw [show onesParamsState.normalization_loaded = true from rfl, if_pos rfl,
      onesParamsState_fields.1, onesParamsState_fields.2.1, neutralFrame_replicate,
      show clip (-5) 5 (-(1 : ℚ) / 1) = -1 from by norm_num [clip, min_def, max_def]]
  · rw [List.getElem?_append_right (by rw [List.length_replicate]; norm_num),
      List.length_replicate, show 29 - 20 = 9 from rfl, List.getElem?_replicate,
      if_pos (by norm_num)]
    intro hcontra
    have h1 : List.replicate 288 (1 : ℚ) = List.replicate 288 (-1 : ℚ) :=
      Option.some.inj hcontra
    have h2 := congrArg List.headI h1
    rw [show (List.replicate 288 (1 : ℚ)).headI = 1 from rfl,
      show (List.replicate 288 (-1 : ℚ)).headI = -1 from rfl] at h2
    norm_num at h2
  · rw [List.getElem?_append_left (by rw [List.length_replicate]; norm_num),
      List.getElem?_replicate, if_pos (by norm_num)]

/-- C3 amended: when the frame count is below the target, the pose
extractor's assembler pads by APPENDING copies of the neutral frame while
the predictor's preprocessing pads by PREPENDING them
(`np.vstack([padding, data])`); in both, each padding frame is the
normalized all-zero raw frame, i.e. `clip(-mean/std, -5, 5)` per
dimension — not literal zeros and not a repetition of the last real
frame.  E.g. assembling from 10 frames yields 30 frames of which the 20
padding frames each equal that neutral frame — at the END for the
extractor, at the FRONT for the predictor. -/
theorem padding_semantics_amended (est : ExtractorState) (pst : PredictorState)
    (seqs data : List (List ℚ)) (target : Nat)
    (hne : seqs ≠ []) (hlt : seqs.length < target)
    (hel : est.normalization_loaded = true)
    (hpl : pst.normalization_loaded = true)
    (hdlt : data.length < pst.sequence_length) :
    adjust_sequence_length est seqs target
      = seqs ++ List.replicate (target - seqs.length)
          (neutralFrame est.feature_means est.feature_stds)
    ∧ (∀ i, seqs.length ≤ i → i < target →
        (adjust_sequence_length est seqs target)[i]?
          = some (neutralFrame est.feature_means est.feature_stds))
    ∧ (∀ i, i < seqs.length →
        (adjust_sequence_length est seqs target)[i]? = seqs[i]?)
    ∧ predictorAdjust pst data
      = List.replicate (pst.sequence_length - data.length)
          (neutralFrame pst.feature_means pst.feature_stds) ++ data
    ∧ (∀ i, i < pst.sequence_length - data.length →
        (predictorAdjust pst data)[i]?
          = some (neutralFrame pst.feature_means pst.feature_stds))
    ∧ (∀ (i : Nat) (m s : ℚ), est.feature_means[i]? = some m → est.feature_stds[i]? = some s →
        (neutralFrame est.feature_means est.feature_stds)[i]?
          = some (clip (-5) 5 (-m / s))) := by
  have hie : seqs.isEmpty = false := by
    cases seqs with
    | nil => exact absurd rfl hne
    | cons a t => rfl
  have he : adjust_sequence_length est seqs target
      = seqs ++ List.replicate (target - seqs.length)
          (neutralFrame est.feature_means est.feature_stds) := by
    unfold adjust_sequence_length
    rw [if_neg (by omega), if_neg (by omega), if_neg (by simp [hie]), hel, if_pos rfl]
  have hp : predictorAdjust pst data
      = List.replicate (pst.sequence_length - data.length)
          (neutralFrame pst.feature_means pst.feature_stds) ++ data := by
    unfold predictorAdjust
    rw [if_neg (by omega), if_pos hdlt, hpl, if_pos rfl]
  refine ⟨he, ?_, ?_, hp, ?_, ?_⟩
  · intro i hge hi
    rw [he, List.getElem?_append_right (by omega), List.getElem?_replicate,
      if_pos (by omega)]
  · intro i hi
    rw [he, List.getElem?_append_left hi]
  · intro i hi
    rw [hp, List.getElem?_append_left (by rw [List.length_replicate]; omega),
      List.getElem?_replicate, if_pos hi]
  · intro i m s hm hs
    exact neutralFrame_getElem _ _ i m s hm hs

/-- Witness for C3's amended theorem: a single real frame of twos padded
to 30 by the extractor (appending) with means `1`, stds `1`. -/
theorem padding_semantics_amended_witness :
    adjust_sequence_length onesExtractorState [List.replicate 288 (2 : ℚ)] 30
      = [List.replicate 288 (2 : ℚ)] ++ List.replicate 29
          (neutralFrame onesExtractorState.feature_means
            onesExtractorState.feature_stds) := by
  have h := padding_semantics_amended onesExtractorState onesParamsState
    [List.replicate 288 (2 : ℚ)] [] 30
    (List.cons_ne_nil _ _) (by norm_num) rfl rfl
    (by rw [show onesParamsState.sequence_length = 30 from rfl]; norm_num)
  exact h.1

/-! ## C4 — the assembler's (30, 288) shape invariant -/

theorem apply_quality_filtering_mem (st : ExtractorState)
    (sequences : List (List ℚ)) (scores : List ℚ) :
    ∀ f ∈ (apply_quality_filtering st sequences scores).1, f ∈ sequences := by
  unfold apply_quality_filtering
  split
  · exact fun f hf => hf
  · intro f hf
    simp only [List.mem_map] at hf
    obtain ⟨p, hp, rfl⟩ := hf
    have hpairs : p ∈ sequences.zip scores := by
      rcases hkept : (sequences.zip scores).filter
          (fun q => st.quality_threshold ≤ q.2) with _ | _
      all_goals rw [hkept] at hp
      · simp only [List.isEmpty_nil, if_pos] at hp
        exact (List.mem_insertionSort _).1 (List.mem_of_mem_take hp)
      · simp only [List.isEmpty_cons, Bool.false_eq_true, if_false] at hp
        rw [← hkept] at hp
        exact List.filter_subset' _ hp
    exact (List.of_mem_zip hpairs).1

theorem apply_normalization_shape (st : ExtractorState)
    (sequences : List (List ℚ))
    (hw : ∀ f ∈ sequences, f.length = st.feature_dim)
    (hm : st.feature_means.length = st.feature_dim)
    (hs : st.feature_stds.length = st.feature_dim) :
    ∀ f ∈ (apply_normalization st sequences).1, f.length = st.feature_dim := by
  unfold apply_normalization
  split
  · intro f hf
    simp only [List.mem_map] at hf
    obtain ⟨g, hg, rfl⟩ := hf
    rw [normalizeFrame_length _ _ _ (hm.trans (hw g hg).symm) (hs.trans (hw g hg).symm)]
    exact hw g hg
  · exact hw

theorem adjust_sequence_length_shape (st : ExtractorState)
    (sequences : List (List ℚ)) (target : Nat)
    (hw : ∀ f ∈ sequences, f.length = st.feature_dim)
    (hm : st.feature_means.length = st.feature_dim)
    (hs : st.feature_stds.length = st.feature_dim) :
    (adjust_sequence_length st sequences target).length = target
    ∧ ∀ f ∈ adjust_sequence_length st sequences target, f.length = st.feature_dim := by
  unfold adjust_sequence_length
  split
  · next h => exact ⟨h, hw⟩
  · next h =>
    split
    · next h2 =>
      refine ⟨?_, ?_⟩
      · rw [List.length_drop]; omega
      · intro f hf; exact hw f (List.mem_of_mem_drop hf)
    · next h2 =>
      split
      · next h3 =>
        refine ⟨by rw [List.length_replicate], ?_⟩
        intro f hf
        rw [List.eq_of_mem_replicate hf, List.length_replicate]
      · next h3 =>
        have hzlen : (if st.normalization_loaded then
            neutralFrame st.feature_means st.feature_stds
            else List.replicate st.feature_dim (0 : ℚ)).length = st.feature_dim := by
          split
          · rw [neutralFrame_length _ _ (hs.trans hm.symm)]; exact hm
          · rw [List.length_replicate]
        refine ⟨?_, ?_⟩
        · rw [List.length_append, List.length_replicate]; omega
        · intro f hf
          rcases List.mem_append.1 hf with hf | hf
          · exact hw f hf
          · rw [List.eq_of_mem_replicate hf]; exact hzlen

set_option linter.unusedVariables false in
/-- C4: for every non-empty raw frame list whose frames are all 288-wide,
and any extractor state with the default configuration (sequence length
30, feature dimension 288) and 288-long parameter vectors, the full
sequence-finalization pipeline (quality filtering, minimum-frame fallback,
normalization, pad/truncate) outputs exactly 30 frames of exactly 288
values each. -/
theorem assembler_shape_invariant (st : ExtractorState)
    (h30 : st.sequence_length = 30) (hdim : st.feature_dim = 288)
    (hm : st.feature_means.length = 288) (hs : st.feature_stds.length = 288)
    (raw_sequences : List (List ℚ)) (quality_scores : List ℚ)
    (hne : raw_sequences ≠ [])
    (hw : ∀ f ∈ raw_sequences, f.length = 288) :
    (finalize_processing st raw_sequences quality_scores).1.length = 30
    ∧ ∀ f ∈ (finalize_processing st raw_sequences quality_scores).1,
        f.length = 288 := by
  have hm' : st.feature_means.length = st.feature_dim := by omega
  have hs' : st.feature_stds.length = st.feature_dim := by omega
  set filtered := if st.enable_quality_filtering then
      (apply_quality_filtering st raw_sequences quality_scores).1
    else raw_sequences with hfiltered
  have hfw : ∀ f ∈ filtered, f.length = 288 := by
    rw [hfiltered]
    split
    · intro f hf
      exact hw f (apply_quality_filtering_mem st raw_sequences quality_scores f hf)
    · exact hw
  set filtered2 := if filtered.length < 5 then raw_sequences else filtered
    with hfiltered2
  have hf2w : ∀ f ∈ filtered2, f.length = st.feature_dim := by
    rw [hfiltered2, hdim]
    split
    · exact hw
    · exact hfw
  have heq : (finalize_processing st raw_sequences quality_scores).1
      = adjust_sequence_length st (apply_normalization st filtered2).1
          st.sequence_length := rfl
  have hnw : ∀ f ∈ (apply_normalization st filtered2).1, f.length = st.feature_dim :=
    apply_normalization_shape st filtered2 hf2w hm' hs'
  have hadj := adjust_sequence_length_shape st (apply_normalization st filtered2).1
    st.sequence_length hnw hm' hs'
  rw [heq, h30]
  rw [h30] at hadj
  exact ⟨hadj.1, by rw [← hdim]; exact hadj.2⟩

/-- Witness for C4 on a single all-zero 288-wide frame. -/
theorem assembler_shape_invariant_witness :
    (finalize_processing onesExtractorState [List.replicate 288 (0 : ℚ)] [1]).1.length
      = 30 := by
  have h := assembler_shape_invariant onesExtractorState rfl rfl
    (List.length_replicate 288 1) (List.length_replicate 288 1)
    [List.replicate 288 (0 : ℚ)] [1] (List.cons_ne_nil _ _)
    (by intro f hf; rw [List.mem_singleton.1 hf, List.length_replicate])
  exact h.1

/-! ## C6 — normalization round-trip -/

/-- C6 counterexample: the round-trip fails as soon as clipping engages.
With means `0`, stds `1` and every raw value `10`, the normalizer clips
`(10 − 0)/1 = 10` to `5`; de-normalizing gives back `5`, and `|5 − 10|`
is far outside the `1e-5` tolerance, so the claim as stated is false at
this frame. -/
theorem normalization_round_trip_cex :
    denormFrame (List.replicate 288 0) (List.replicate 288 1)
        (normalizeFrame (List.replicate 288 0) (List.replicate 288 1)
          (List.replicate 288 10))
      = List.replicate 288 (5 : ℚ)
    ∧ ¬ (|(5 : ℚ) - 10| ≤ 1/100000) := by
  constructor
  · rw [normalizeFrame_replicate]
    have hc : clip (-5) 5 ((10 - 0) / 1) = 5 := by
      norm_num [clip, min_def, max_def]
    rw [hc, denormFrame_replicate]
    norm_num
  · norm_num [abs_le]

/-- C6 amended: the round-trip holds exactly (in particular within the
`1e-5` tolerance) whenever no value is clipped — that is, for every frame
and valid parameter pair whose standardized values all lie in `[-5, 5]`,
with all stds non-zero: de-normalizing the normalizer's output
reconstructs the original frame.  Values whose standardized magnitude
exceeds `5` are clipped and cannot be reconstructed. -/
theorem normalization_round_trip_amended (f means stds : List ℚ)
    (hm : means.length = f.length) (hs : stds.length = f.length)
    (hall : ∀ p ∈ f.zip (means.zip stds),
      p.2.2 ≠ 0 ∧ -5 ≤ (p.1 - p.2.1) / p.2.2 ∧ (p.1 - p.2.1) / p.2.2 ≤ 5) :
    denormFrame means stds (normalizeFrame means stds f) = f := by
  induction f generalizing means stds with
  | nil => simp [normalizeFrame, denormFrame]
  | cons x t ih =>
    cases means with
    | nil => simp at hm
    | cons m ms =>
      cases stds with
      | nil => simp at hs
      | cons s ss =>
        have hhead := hall (x, m, s) (by simp)
        obtain ⟨hnz, hlo, hhi⟩ := hhead
        have hrest : ∀ p ∈ t.zip (ms.zip ss),
            p.2.2 ≠ 0 ∧ -5 ≤ (p.1 - p.2.1) / p.2.2 ∧ (p.1 - p.2.1) / p.2.2 ≤ 5 := by
          intro p hp
          exact hall p (by simp [hp])
        have htail := ih ms ss (by simpa using hm) (by simpa using hs) hrest
        have hclip : clip (-5) 5 ((x - m) / s) = (x - m) / s :=
          clip_eq_of_mem _ _ _ hlo hhi
        simp only [normalizeFrame, denormFrame, List.zip_cons_cons, List.map_cons] at htail ⊢
        rw [hclip, div_mul_cancel₀ _ hnz]
        simp [htail]

/-- Witness for C6 at a concrete unclipped frame. -/
theorem normalization_round_trip_amended_witness :
    denormFrame [1, 2] [2, 4] (normalizeFrame [1, 2] [2, 4] [3, 0]) = [3, 0] := by
  refine normalization_round_trip_amended [3, 0] [1, 2] [2, 4] rfl rfl ?_
  intro p hp
  simp only [List.zip_cons_cons, List.zip_nil_right, List.mem_cons] at hp
  rcases hp with h | h | h
  · subst h; norm_num
  · subst h; norm_num
  · simp at h

/-! ## C7 — truncation keeps the most recent frames -/

/-- C7: whenever the frame count exceeds the target length of 30, both the
pose extractor's `_adjust_sequence_length` and the predictor's
preprocessing keep exactly the last 30 frames, discarding the earlier
ones: the output is the drop of the first `n − 30` frames, has length 30,
and its `i`-th frame is the input's `(n − 30) + i`-th frame. -/
theorem truncation_keeps_last_30 (est : ExtractorState) (pst : PredictorState)
    (seqs data : List (List ℚ))
    (h1 : 30 < seqs.length) (h2 : pst.sequence_length = 30) (h3 : 30 < data.length) :
    adjust_sequence_length est seqs 30 = seqs.drop (seqs.length - 30)
    ∧ (adjust_sequence_length est seqs 30).length = 30
    ∧ (∀ i : Nat, (adjust_sequence_length est seqs 30)[i]? = seqs[(seqs.length - 30) + i]?)
    ∧ predictorAdjust pst data = data.drop (data.length - 30)
    ∧ (predictorAdjust pst data).length = 30
    ∧ (∀ i : Nat, (predictorAdjust pst data)[i]? = data[(data.length - 30) + i]?) := by
  have he : adjust_sequence_length est seqs 30 = seqs.drop (seqs.length - 30) := by
    unfold adjust_sequence_length
    rw [if_neg (by omega), if_pos h1]
  have hp : predictorAdjust pst data = data.drop (data.length - 30) := by
    unfold predictorAdjust
    rw [h2, if_pos h3]
  refine ⟨he, ?_, ?_, hp, ?_, ?_⟩
  · rw [he, List.length_drop]; omega
  · intro i; rw [he, List.getElem?_drop]
  · rw [hp, List.length_drop]; omega
  · intro i; rw [hp, List.getElem?_drop]

/-- Witness for C7 at a concrete 31-frame input. -/
theorem truncation_keeps_last_30_witness :
    adjust_sequence_length
        { feature_means := [], feature_stds := [], normalization_loaded := false }
        (List.replicate 31 ([] : List ℚ)) 30
      = (List.replicate 31 ([] : List ℚ)).drop 1 := by
  have h := truncation_keeps_last_30
    { feature_means := [], feature_stds := [], normalization_loaded := false }
    { feature_means := [], feature_stds := [], normalization_loaded := false }
    (List.replicate 31 ([] : List ℚ)) (List.replicate 31 ([] : List ℚ))
    (by simp) rfl (by simp)
  simpa using h.1

/-! ## C8 — quality-score formula and bounds -/

/-- C8: on a 288-dimensional frame vector the quality score equals
`clamp(0.5·component + 0.3·data_quality + 0.2·motion_quality)` with
component weights pose 0.4 (the pose quality passed in is the mean pose
visibility), left hand 0.3, right hand 0.3, face 0.0, with
`data_quality = 1 − (fraction of near-zero values)` and
`motion_quality = min(1, variance·1000)`; and the returned score always
lies in `[0, 1]` for every input. -/
theorem quality_score_spec (features : List ℚ) (lh_q rh_q pose_q face_q : ℚ) :
    (features.length = 288 →
      calculate_quality_score features lh_q rh_q pose_q face_q =
        clamp01 ((pose_q * (4/10) + lh_q * (3/10) + rh_q * (3/10) + face_q * 0) * (5/10)
          + (1 - ((features.filter (fun v => |v| < 1/1000000)).length : ℚ) / 288) * (3/10)
          + min 1 (varQ features * 1000) * (2/10)))
    ∧ 0 ≤ calculate_quality_score features lh_q rh_q pose_q face_q
    ∧ calculate_quality_score features lh_q rh_q pose_q face_q ≤ 1 := by
  refine ⟨fun h => ?_, ?_, ?_⟩
  · have hfrac : ((features.filter (fun v => |v| < 1/1000000)).length : ℚ) / 288 ≤ 1 := by
      have hle : (features.filter (fun v => |v| < 1/1000000)).length ≤ 288 := by
        calc (features.filter (fun v => |v| < 1/1000000)).length
            ≤ features.length := features.length_filter_le _
          _ = 288 := h
      rw [div_le_one (by norm_num)]
      exact_mod_cast hle
    have hmax : max 0 (1 - ((features.filter (fun v => |v| < 1/1000000)).length : ℚ) / 288)
        = 1 - ((features.filter (fun v => |v| < 1/1000000)).length : ℚ) / 288 :=
      max_eq_right (by linarith)
    simp only [calculate_quality_score, h]
    norm_num [hmax]
  · unfold calculate_quality_score
    split
    · exact le_refl 0
    · exact clamp01_nonneg _
  · unfold calculate_quality_score
    split
    · norm_num
    · exact clamp01_le_one _

/-- Witness for C8 at the all-zero 288-dimensional frame. -/
theorem quality_score_spec_witness :
    calculate_quality_score (List.replicate 288 0) 1 1 1 0 =
      clamp01 ((1 * (4/10) + 1 * (3/10) + 1 * (3/10) + 0 * 0) * (5/10)
        + (1 - ((((List.replicate 288 (0:ℚ)).filter
            (fun v => |v| < 1/1000000)).length : ℚ)) / 288) * (3/10)
        + min 1 (varQ (List.replicate 288 0) * 1000) * (2/10))
    ∧ 0 ≤ calculate_quality_score (List.replicate 288 0) 1 1 1 0 := by
  have h := quality_score_spec (List.replicate 288 0) 1 1 1 0
  exact ⟨h.1 (List.length_replicate 288 0), h.2.1⟩

/-! ## C9 — the statistics pass never returns a zero std -/

/-- C9: the offline statistics pass returns, for every feature dimension,
a standard deviation that is never exactly `0`: the returned stds vector
has one entry per feature dimension, no entry is `0`, and any dimension
whose computed std is `0` (in particular any constant column, whose
variance is `0`) carries exactly the epsilon `1e-8`. -/
theorem fit_stds_never_zero (sqrtQ : ℚ → ℚ) (corpus : List (List ℚ)) :
    (∀ s ∈ (calculate_normalization_parameters sqrtQ corpus).2, s ≠ 0)
    ∧ (calculate_normalization_parameters sqrtQ corpus).2.length
        = (corpus.headI).length
    ∧ (∀ j, j < (corpus.headI).length →
        sqrtQ (varQ (column corpus j)) = 0 →
        ((calculate_normalization_parameters sqrtQ corpus).2)[j]?
          = some (1/100000000)) := by
  refine ⟨?_, ?_, ?_⟩
  · intro s hs
    simp only [calculate_normalization_parameters, List.mem_map] at hs
    obtain ⟨t, _, ht⟩ := hs
    by_cases h : t = 0
    · rw [← ht, if_pos h]; norm_num
    · rw [← ht, if_neg h]; exact h
  · simp [calculate_normalization_parameters]
  · intro j hj hz
    simp only [calculate_normalization_parameters]
    rw [List.getElem?_map, List.getElem?_map, List.getElem?_range hj]
    simp [hz]

/-- Witness for C9: a two-frame corpus with a constant single dimension,
using the identity as the square root (legitimate at the only value it is
applied to here, namely `0`). -/
theorem fit_stds_never_zero_witness :
    ((1 : ℚ)/100000000) ∈ (calculate_normalization_parameters id [[1], [1]]).2
    ∧ ((1 : ℚ)/100000000) ≠ 0 := by
  have h := fit_stds_never_zero id [[1], [1]]
  have hj := h.2.2 0 (by simp) (by norm_num [varQ, column, meanQ])
  constructor
  · have : ((calculate_normalization_parameters id [[1], [1]]).2)[0]?
        = some (1/100000000) := hj
    exact List.getElem?_mem this
  · exact h.1 _ (by
      have : ((calculate_normalization_parameters id [[1], [1]]).2)[0]?
          = some (1/100000000) := hj
      exact List.getElem?_mem this)

/-! ## C1 — the frame encoder's block layout -/

theorem hand_block_length (o : Option (List Landmark))
    (h : ∀ lms, o = some lms → lms.length = 21) :
    (hand_block o).1.length = 63 := by
  cases ho : o with
  | none => rw [hand_block, List.length_replicate]
  | some lms =>
    rw [hand_block, flat3_length, h lms ho]

theorem pose_block_length (o : Option (List Landmark))
    (h : ∀ lms, o = some lms → lms.length = 33) :
    (pose_block o).1.length = 132 := by
  cases ho : o with
  | none => rw [pose_block, List.length_replicate]
  | some lms =>
    rw [pose_block, flat4_length, h lms ho]

theorem face_block_spec (o : Option (List Landmark))
    (h : ∀ lms, o = some lms → 10 ≤ lms.length) :
    (face_block o).1 = claimed_face_block o
    ∧ (face_block o).1.length = 30 := by
  cases ho : o with
  | none => exact ⟨rfl, by rw [face_block, List.length_replicate]⟩
  | some lms =>
    have h10 := h lms ho
    constructor
    · rw [face_block, claimed_face_block, if_pos h10]
    · rw [face_block, if_pos h10, flat3_length, List.length_take]
      omega

theorem coords_block_length (n : Nat) (k : Nat) (o : Option (List Landmark))
    (hn : n = 3 * k) (h : ∀ lms, o = some lms → lms.length = k) :
    (coords_block n o).length = n := by
  cases ho : o with
  | none => rw [coords_block, List.length_replicate]
  | some lms =>
    rw [coords_block, flat3_length, h lms ho, hn]

theorem face21_block_length (o : Option (List Landmark)) :
    (face21_block o).length = 63 := by
  cases ho : o with
  | none => rw [face21_block, List.length_replicate]
  | some lms =>
    rw [face21_block]
    split
    · next h21 => rw [flat3_length, List.length_take]; omega
    · rw [List.length_replicate]

set_option maxRecDepth 8000 in
/-- C1 counterexample: the repository's second encoder
(`PoseFeatureExtractor.extract_features_from_landmarks`) does not return
the claimed `left_hand | right_hand | pose-with-visibility | face-10`
concatenation: on a frame where only the pose group is present (33 points
at `(2, 2, 2)`, visibility `1`), the claimed layout starts with the left
hand's zero block (first value `0`) while this encoder starts with the
pose coordinates (first value `2`). -/
theorem encoder_layout_cex :
    extract_features_from_landmarks poseOnlyInput ≠ claimedEncodeFrame poseOnlyInput
    ∧ (extract_features_from_landmarks poseOnlyInput).headI = 2
    ∧ (claimedEncodeFrame poseOnlyInput).headI = 0 := by
  refine ⟨by decide, by decide, by decide⟩

/-- C1 amended: the primary encoder
(`EnhancedPoseExtractor.extract_keypoints_enhanced`) does return exactly
288 floats laid out as the claim states — left_hand (63), right_hand
(63), pose with visibility (132), first-10-face (30), with zero blocks
for absent groups — for every input whose present hand groups have 21
points, present pose group has 33 points, and present face group has at
least 10 points.  The second encoder
(`PoseFeatureExtractor.extract_features_from_landmarks`) also returns
exactly 288 floats, but in the order pose (33×3 = 99, without
visibility), left_hand (63), right_hand (63), first-21-face (63). -/
theorem encoder_layout_amended (r : HolisticResults)
    (hl : ∀ lms, r.left_hand_landmarks = some lms → lms.length = 21)
    (hr : ∀ lms, r.right_hand_landmarks = some lms → lms.length = 21)
    (hp : ∀ lms, r.pose_landmarks = some lms → lms.length = 33)
    (hf : ∀ lms, r.face_landmarks = some lms → 10 ≤ lms.length) :
    (extract_keypoints_enhanced r).1 = claimedEncodeFrame r
    ∧ (extract_keypoints_enhanced r).1.length = 288
    ∧ extract_features_from_landmarks r
        = coords_block 99 r.pose_landmarks
          ++ coords_block 63 r.left_hand_landmarks
          ++ coords_block 63 r.right_hand_landmarks
          ++ face21_block r.face_landmarks
    ∧ (extract_features_from_landmarks r).length = 288 := by
  have h1 : (extract_keypoints_enhanced r).1 = claimedEncodeFrame r := by
    show (hand_block r.left_hand_landmarks).1 ++ (hand_block r.right_hand_landmarks).1
        ++ (pose_block r.pose_landmarks).1 ++ (face_block r.face_landmarks).1
      = _
    rw [claimedEncodeFrame, (face_block_spec r.face_landmarks hf).1]
  have h2 : (extract_keypoints_enhanced r).1.length = 288 := by
    rw [h1, claimedEncodeFrame, List.length_append, List.length_append,
      List.length_append, hand_block_length _ hl, hand_block_length _ hr,
      pose_block_length _ hp]
    have hface : (claimed_face_block r.face_landmarks).length = 30 := by
      rw [← (face_block_spec r.face_landmarks hf).1]
      exact (face_block_spec r.face_landmarks hf).2
    omega
  have hrawlen : (coords_block 99 r.pose_landmarks
      ++ coords_block 63 r.left_hand_landmarks
      ++ coords_block 63 r.right_hand_landmarks
      ++ face21_block r.face_landmarks).length = 288 := by
    rw [List.length_append, List.length_append, List.length_append,
      coords_block_length 99 33 _ rfl hp, coords_block_length 63 21 _ rfl hl,
      coords_block_length 63 21 _ rfl hr, face21_block_length]
  have h3 : extract_features_from_landmarks r
      = coords_block 99 r.pose_landmarks
        ++ coords_block 63 r.left_hand_landmarks
        ++ coords_block 63 r.right_hand_landmarks
        ++ face21_block r.face_landmarks := by
    rw [extract_features_from_landmarks]
    rw [if_pos hrawlen]
  exact ⟨h1, h2, h3, by rw [h3]; exact hrawlen⟩

/-- Witness for C1's amended theorem at the pose-only frame. -/
theorem encoder_layout_amended_witness :
    (extract_keypoints_enhanced poseOnlyInput).1 = claimedEncodeFrame poseOnlyInput := by
  have h := encoder_layout_amended poseOnlyInput
    (by
      intro lms hlms
      rw [show poseOnlyInput.left_hand_landmarks = none from rfl] at hlms
      exact Option.noConfusion hlms)
    (by
      intro lms hlms
      rw [show poseOnlyInput.right_hand_landmarks = none from rfl] at hlms
      exact Option.noConfusion hlms)
    (by
      intro lms hlms
      have h33 : some (List.replicate 33 (⟨2, 2, 2, 1⟩ : Landmark)) = some lms := hlms
      rw [← Option.some.inj h33, List.length_replicate])
    (by
      intro lms hlms
      rw [show poseOnlyInput.face_landmarks = none from rfl] at hlms
      exact Option.noConfusion hlms)
  exact h.1

end SilentVoice
